import Mathlib

/-!
# Verification of the rar2fs recursion core, dirlist and rarconfig modules

Shallow embedding of the C sources `src/recursion.c`, the dirlist part of
`src/filecache.h`, and `src/rarconfig.c`, together with proofs about the
properties their specification states.

Strings are modelled as lists of bytes (`List Nat`, each element a byte
value `< 256`, non-zero inside a C string).  Machine integers (`int`,
`off_t`, `time_t`) are modelled as `Int`; `uint64_t` arithmetic is `Nat`
arithmetic reduced `% 2^64`; `size_t` values that the code keeps small are
`Nat`.
-/

namespace Rar2fs

/-! ## Constants from `recursion.h` and `errno.h` -/

def MAX_RECURSION_DEPTH : Int := 10

def DEFAULT_MAX_RECURSION_DEPTH : Int := 5

def FNV_64_PRIME : Nat := 0x100000001b3

def FNV_64_OFFSET_BASIS : Nat := 0xcbf29ce484222325

def FINGERPRINT_CHUNK_SIZE : Nat := 4096

def MAX_NESTED_PATH_LENGTH : Nat := 4096

def EINVAL : Int := 22

def ENOMEM : Int := 12

def EFBIG : Int := 27

def ELOOP : Int := 40

/-! ## Data model: `struct archive_fingerprint`, `struct recursion_context`

`archive_chain` entries model the `char *` chain slots (`none` = NULL).
The `visited` and `archive_chain` arrays have length `MAX_RECURSION_DEPTH`
(= 10) in C; here they are lists whose length is 10 in every reachable
state (established by `recursion_context_init`).
-/

structure archive_fingerprint where
  hash : Nat
  size : Int
  mtime : Int
deriving Repr, DecidableEq

def fpZero : archive_fingerprint := ⟨0, 0, 0⟩

structure recursion_context where
  depth : Int
  max_depth : Int
  visited : List archive_fingerprint
  archive_chain : List (Option (List Nat))
  total_unpacked_size : Int
  max_unpacked_size : Int
deriving Repr, DecidableEq

/-- Embeds `recursion_context_init`.  The two arguments model the
`--recursion-depth` and `--max-unpack-size` options read from `optdb`
(`none` = option not set). -/
def recursion_context_init (recursionDepthOpt : Option Int)
    (maxUnpackOpt : Option Int) : recursion_context :=
  let md : Int :=
    match recursionDepthOpt with
    | some configured =>
        if 1 ≤ configured ∧ configured ≤ MAX_RECURSION_DEPTH then configured
        else DEFAULT_MAX_RECURSION_DEPTH
    | none => DEFAULT_MAX_RECURSION_DEPTH
  let mu : Int :=
    match maxUnpackOpt with
    | some configured =>
        if 0 < configured then configured else 10 * 1024 * 1024 * 1024
    | none => 10 * 1024 * 1024 * 1024
  { depth := 0
    max_depth := md
    visited := List.replicate 10 fpZero
    archive_chain := List.replicate 10 none
    total_unpacked_size := 0
    max_unpacked_size := mu }

/-! ## FNV-1a hashing and fingerprints (`fnv1a_hash_64`,
`compute_archive_fingerprint`) -/

/-- Embeds `fnv1a_hash_64`: byte-wise FNV-1a over the buffer, with
`uint64_t` arithmetic modelled as `Nat` arithmetic `% 2^64`. -/
def fnv1a_hash_64 (data : List Nat) : Nat :=
  data.foldl (fun h b => ((h ^^^ (b % 256)) * FNV_64_PRIME) % 2 ^ 64)
    FNV_64_OFFSET_BASIS

/-- The 8 bytes of a `uint64_t` as laid out in memory on a little-endian
host; `fnv1a_hash_64(&combined, sizeof(combined))` hashes exactly these. -/
def le64Bytes (x : Nat) : List Nat :=
  [x % 256, x / 2 ^ 8 % 256, x / 2 ^ 16 % 256, x / 2 ^ 24 % 256,
   x / 2 ^ 32 % 256, x / 2 ^ 40 % 256, x / 2 ^ 48 % 256, x / 2 ^ 56 % 256]

/-- Embeds `compute_archive_fingerprint`.  The C function receives a
pointer and a size; here the buffer is `data` and the size is
`data.length`.  The NULL-data guard corresponds to the empty list. -/
def compute_archive_fingerprint (data : List Nat) (mtime : Int) :
    archive_fingerprint :=
  if data.length = 0 then fpZero
  else
    let first_chunk_size :=
      if data.length < FINGERPRINT_CHUNK_SIZE then data.length
      else FINGERPRINT_CHUNK_SIZE
    let hash1 := fnv1a_hash_64 (data.take first_chunk_size)
    let hash2 :=
      if data.length > FINGERPRINT_CHUNK_SIZE then
        fnv1a_hash_64 (data.drop (data.length - FINGERPRINT_CHUNK_SIZE))
      else 0
    let combined := hash1 ^^^ hash2
    { hash := fnv1a_hash_64 (le64Bytes combined)
      size := (data.length : Int)
      mtime := mtime }

/-! ## Cycle detection and the visited stack (`is_cycle_detected`,
`recursion_push_archive`, `recursion_pop_archive`) -/

/-- Embeds `is_cycle_detected` (non-NULL `ctx` and `fp`): scans
`visited[0 .. depth-1]` for an entry agreeing with `fp` on hash, size
and mtime. -/
def is_cycle_detected (ctx : recursion_context)
    (fp : archive_fingerprint) : Bool :=
  (ctx.visited.take ctx.depth.toNat).any fun visited =>
    visited.hash == fp.hash && visited.size == fp.size &&
      visited.mtime == fp.mtime

/-- Embeds `recursion_push_archive` (non-NULL `ctx` and `fp`, `strdup`
assumed to succeed): returns the C return value together with the updated
context. -/
def recursion_push_archive (ctx : recursion_context)
    (fp : archive_fingerprint) (archive_path : Option (List Nat)) :
    Int × recursion_context :=
  if ctx.depth ≥ ctx.max_depth then (-ELOOP, ctx)
  else if ctx.depth ≥ MAX_RECURSION_DEPTH then (-ELOOP, ctx)
  else
    (0, { ctx with
            visited := ctx.visited.set ctx.depth.toNat fp
            archive_chain := ctx.archive_chain.set ctx.depth.toNat archive_path
            depth := ctx.depth + 1 })

/-- Embeds `recursion_pop_archive` (non-NULL `ctx`). -/
def recursion_pop_archive (ctx : recursion_context) : recursion_context :=
  if ctx.depth ≤ 0 then ctx
  else
    { ctx with
        depth := ctx.depth - 1
        visited := ctx.visited.set (ctx.depth - 1).toNat fpZero
        archive_chain := ctx.archive_chain.set (ctx.depth - 1).toNat none }

/-- Embeds `check_unpack_size_limit` (non-NULL `ctx`): returns the C
return value together with the updated context.  `off_t` arithmetic is
exact here; on the reachable states (`0 < max_unpacked_size`,
`0 ≤ archive_size`) the C subtraction does not wrap. -/
def check_unpack_size_limit (ctx : recursion_context) (archive_size : Int) :
    Int × recursion_context :=
  if archive_size < 0 then (-EINVAL, ctx)
  else if ctx.total_unpacked_size > ctx.max_unpacked_size - archive_size then
    (-EFBIG, ctx)
  else
    (0, { ctx with
            total_unpacked_size := ctx.total_unpacked_size + archive_size })

/-! ## Path sanitization (`is_absolute_path`, `is_windows_absolute_path`,
`strip_dotdot_components`, `is_valid_utf8`, `sanitize_nested_path`)

A C path string is a list of non-zero bytes; an out-of-range read in the
C code hits the NUL terminator, which the embeddings reproduce by
treating a missing byte as `0`.
-/

/-- Embeds `is_absolute_path`. -/
def is_absolute_path (path : List Nat) : Bool :=
  match path with
  | [] => false
  | c :: _ => c == 47 || c == 92

/-- `isalpha` from `ctype.h` in the C locale. -/
def c_isalpha (c : Nat) : Bool :=
  (65 ≤ c && c ≤ 90) || (97 ≤ c && c ≤ 122)

/-- Embeds `is_windows_absolute_path`: `[A-Za-z]`, then `:`, then a
separator; strings shorter than 3 bytes are rejected. -/
def is_windows_absolute_path (path : List Nat) : Bool :=
  match path with
  | c0 :: c1 :: c2 :: _ => c_isalpha c0 && c1 == 58 && (c2 == 92 || c2 == 47)
  | _ => false

/-- Embeds the scanning loop of `strip_dotdot_components`: at every
position, `".."` followed by `/`, `\` or the end of the string is
skipped together with the following separator; otherwise one byte is
copied. -/
def strip_dotdot_loop : List Nat → List Nat
  | 46 :: 46 :: 47 :: rest => strip_dotdot_loop rest
  | 46 :: 46 :: 92 :: rest => strip_dotdot_loop rest
  | [46, 46] => []
  | c :: rest => c :: strip_dotdot_loop rest
  | [] => []

/-- Embeds `strip_dotdot_components` (non-NULL input, `malloc` assumed to
succeed): runs the scanning loop, then rejects a result that still starts
with a `".."` component (`none` models the NULL return). -/
def strip_dotdot_components (path : List Nat) : Option (List Nat) :=
  let result := strip_dotdot_loop path
  match result with
  | 46 :: 46 :: 47 :: _ => none
  | [46, 46] => none
  | _ => some result

/-- Embeds `is_valid_utf8` (non-NULL input).  Reading past the end of the
list models reading the NUL terminator: the continuation-byte checks on
`0` fail, as in C. -/
def is_valid_utf8 : List Nat → Bool
  | [] => true
  | b0 :: rest =>
    if b0 &&& 0x80 == 0 then is_valid_utf8 rest
    else if b0 &&& 0xE0 == 0xC0 then
      match rest with
      | b1 :: rest2 =>
          if (b1 &&& 0xC0) != 0x80 then false
          else if b0 &&& 0xFE == 0xC0 then false
          else is_valid_utf8 rest2
      | [] => false
    else if b0 &&& 0xF0 == 0xE0 then
      match rest with
      | b1 :: b2 :: rest3 =>
          if (b1 &&& 0xC0) != 0x80 || (b2 &&& 0xC0) != 0x80 then false
          else if b0 == 0xE0 && (b1 &&& 0xE0) == 0x80 then false
          else is_valid_utf8 rest3
      | _ => false
    else if b0 &&& 0xF8 == 0xF0 then
      match rest with
      | b1 :: b2 :: b3 :: rest4 =>
          if (b1 &&& 0xC0) != 0x80 || (b2 &&& 0xC0) != 0x80 ||
              (b3 &&& 0xC0) != 0x80 then false
          else if b0 == 0xF0 && (b1 &&& 0xF0) == 0x80 then false
          else if b0 > 0xF4 then false
          else is_valid_utf8 rest4
      | _ => false
    else false

/-- Embeds `sanitize_nested_path` (non-NULL input, allocations assumed to
succeed); `none` models the NULL return. -/
def sanitize_nested_path (path : List Nat) : Option (List Nat) :=
  if path.length = 0 then none
  else if path.length > MAX_NESTED_PATH_LENGTH then none
  else if is_absolute_path path then none
  else if is_windows_absolute_path path then none
  else if !is_valid_utf8 path then none
  else
    let normalized := path.map fun c => if c == 92 then 47 else c
    match strip_dotdot_components normalized with
    | none => none
    | some sanitized => if sanitized.isEmpty then none else some sanitized

/-! ## In-memory extraction buffer (`struct extract_buffer`,
`extract_to_memory_callback`) -/

def EXTRACT_BUFFER_LIMIT : Nat := 1024 * 1024 * 1024

structure extract_buffer where
  data : List Nat
  size : Nat
  capacity : Nat
  error : Bool
deriving Repr, DecidableEq

/-- A caller-initialized (zeroed) `struct extract_buffer`. -/
def extract_buffer_init : extract_buffer :=
  { data := [], size := 0, capacity := 0, error := false }

/-- Embeds `extract_to_memory_callback` for one `UCM_PROCESSDATA` message
carrying `chunk` (`realloc` assumed to succeed; a NULL chunk pointer
behaves like an empty chunk).  Returns the callback's return value
together with the updated buffer. -/
def extract_to_memory_callback (buf : extract_buffer) (chunk : List Nat) :
    Int × extract_buffer :=
  if buf.error then (-1, buf)
  else if chunk.length = 0 then (1, buf)
  else if buf.capacity < buf.size + chunk.length then
    let grown := buf.capacity * 2
    let new_capacity :=
      if grown < buf.size + chunk.length then buf.size + chunk.length
      else grown
    if EXTRACT_BUFFER_LIMIT < new_capacity then (-1, { buf with error := true })
    else
      (1, { data := buf.data ++ chunk
            size := buf.size + chunk.length
            capacity := new_capacity
            error := false })
  else
    (1, { buf with data := buf.data ++ chunk
                   size := buf.size + chunk.length })

/-- Feeding a whole sequence of data chunks to the callback. -/
def extract_run (chunks : List (List Nat)) (buf : extract_buffer) :
    extract_buffer :=
  chunks.foldl (fun b c => (extract_to_memory_callback b c).2) buf

/-! ## Directory entry lists (`struct dir_entry`, `swap`,
`dir_list_close`, `dir_entry_add` from the dirlist part of the sources)

A `struct dir_entry_list` is modelled as the Lean list of its non-head
entries.  The `st` field models the borrowed `struct stat *` pointer as
an opaque identifier.
-/

/-- The `DIR_E_NRM` entry-type code from `dirlist.h` (the header is not
under `src/`; the spec calls this the passthrough / regular-filesystem
entry type, the one carrying no hash).  Its numeric value is never used
by the proofs, only equality with it. -/
def DIR_E_NRM : Int := 0

structure dir_entry where
  name : List Nat
  hash : Nat
  type : Int
  valid : Int
  st : Nat
deriving Repr, DecidableEq

/-- Everything in a directory entry except the mutable `valid` flag. -/
def entry_key (e : dir_entry) : List Nat × Nat × Int × Nat :=
  (e.name, e.hash, e.type, e.st)

/-- C `strcmp` on byte strings, normalized to `-1`, `0`, `1`. -/
def strcmp : List Nat → List Nat → Int
  | [], [] => 0
  | [], _ :: _ => -1
  | _ :: _, [] => 1
  | a :: as, b :: bs => if a < b then -1 else if b < a then 1 else strcmp as bs

/-- The exchange condition of `swap`: `strcmp` on the names, ties broken
by `type`, swap when the first entry is strictly greater. -/
def dir_entry_gt (A B : dir_entry) : Bool :=
  if strcmp A.name B.name = 0 then decide (B.type < A.type)
  else decide (0 < strcmp A.name B.name)

/-- One pass of the bubble sort in `dir_list_close`: walks adjacent
pairs, exchanging out-of-order ones in place (so the greater entry is
carried forward), and counts the exchanges. -/
def bubblePass : List dir_entry → List dir_entry × Nat
  | [] => ([], 0)
  | [a] => ([a], 0)
  | a :: b :: rest =>
      if dir_entry_gt a b then
        let p := bubblePass (a :: rest)
        (b :: p.1, p.2 + 1)
      else
        let p := bubblePass (b :: rest)
        (a :: p.1, p.2)

/-- The `do { … } while (n != 0)` driver of the bubble sort, with an
explicit pass budget.  The C loop runs until a pass performs no swap;
`dir_list_sort` supplies a budget that provably reaches that fixpoint. -/
def bubbleLoop : Nat → List dir_entry → List dir_entry
  | 0, l => l
  | fuel + 1, l =>
      let p := bubblePass l
      if p.2 = 0 then p.1 else bubbleLoop fuel p.1

/-- Number of out-of-order pairs; each productive bubble pass removes
exactly as many as it swaps, so `inversions l + 1` passes suffice. -/
def inversions : List dir_entry → Nat
  | [] => 0
  | a :: l => l.countP (fun b => dir_entry_gt a b) + inversions l

/-- The sorting phase of `dir_list_close`. -/
def dir_list_sort (l : List dir_entry) : List dir_entry :=
  bubbleLoop (inversions l + 1) l

/-- The duplicate-marking condition of `dir_list_close`'s second loop,
evaluated on an adjacent pair (earlier entry first); it reads only the
earlier entry's type, the two hashes and the two names. -/
def dup_cond (A B : dir_entry) : Bool :=
  (A.type == DIR_E_NRM || A.hash == B.hash) && strcmp A.name B.name == 0

/-- The duplicate-marking loop of `dir_list_close`: walks adjacent pairs
of the sorted list and clears the later entry's `valid` flag on a
duplicate; the (possibly just-marked) later entry is the earlier entry of
the next comparison, exactly as the C `next = next->next` walk does. -/
def markDups : List dir_entry → List dir_entry
  | [] => []
  | [a] => [a]
  | a :: b :: rest =>
      if dup_cond a b then a :: markDups ({ b with valid := 0 } :: rest)
      else a :: markDups (b :: rest)
termination_by l => l.length
decreasing_by all_goals simp

/-- Embeds `dir_list_close` on the non-head entries: bubble sort to the
no-swap fixpoint, then duplicate marking. -/
def dir_list_close (l : List dir_entry) : List dir_entry :=
  markDups (dir_list_sort l)

/-- Modelled from the spec: `get_hash` (from `hash.c`, which is not under
`src/`); the spec says virtual paths are "hashed with a non-cryptographic
rolling hash" producing the 32-bit `entry.hash`.  Only determinism of the
hash is used by the proofs. -/
def get_hash (key : List Nat) : Nat :=
  key.foldl (fun h c => (h * 33 + c) % 2 ^ 32) 5381

/-- The search condition of `dir_entry_add`'s scan: stored hash equal to
the probed key's hash, then `strcmp` equality on the names. -/
def entry_matches (h : Nat) (key : List Nat) (e : dir_entry) : Bool :=
  h == e.hash && strcmp key e.name == 0

/-- Embeds `dir_entry_add` on the non-head entry list (a NULL list and a
fresh head are both the empty list; allocations assumed to succeed):
returns the updated list together with the node the C function returns. -/
def dir_entry_add (l : List dir_entry) (key : List Nat) (st : Nat)
    (type : Int) : List dir_entry × dir_entry :=
  let h := get_hash key
  match l.find? (entry_matches h key) with
  | some e => (l, e)
  | none =>
      let e : dir_entry := { name := key, hash := h, type := type,
                             valid := 1, st := st }
      (l ++ [e], e)

/-! ## Per-archive configuration aliases (`__dirlevels`, `__check_paths`,
`__set_alias`, `__entry_set_alias` from `rarconfig.c`) -/

/-- Modelled from the spec: `__gnu_dirname` (from `dirname.c`, which is
not under `src/`).  The spec's alias rule compares the two paths'
"directory component"; this is POSIX/GNU `dirname` on byte strings:
strip trailing slashes, drop the final component, strip the separators
before it; `"."` for slashless input, `"/"` when only the root is left. -/
def gnu_dirname (path : List Nat) : List Nat :=
  let q := (path.reverse.dropWhile (· == 47)).reverse
  if q = [] then (if path = [] then [46] else [47])
  else
    let r := (q.reverse.dropWhile (· != 47)).reverse
    if r = [] then [46]
    else
      let s := (r.reverse.dropWhile (· == 47)).reverse
      if s = [] then [47] else s

/-- The `while (strcmp(tmp, "/")) { ++count; tmp = dirname(tmp); }` loop
of `__dirlevels`, with an explicit budget.  On the absolute paths the
caller feeds it (checked first in `__check_paths`), `dirname` strictly
shortens the path, so `path.length + 1` iterations provably reach `"/"`;
on other inputs the C loop does not terminate and is never run. -/
def dirlevels_loop : Nat → List Nat → Nat
  | 0, _ => 0
  | fuel + 1, p =>
      if p = [47] then 0 else dirlevels_loop fuel (gnu_dirname p) + 1

/-- Embeds `__dirlevels` (`strdup` assumed to succeed). -/
def dirlevels (path : List Nat) : Nat :=
  dirlevels_loop (path.length + 1) path

/-- Embeds `__check_paths`: `0` when the alias pair is admissible, `1`
when it is rejected (`strdup` assumed to succeed). -/
def check_paths (a b : List Nat) : Int :=
  if a.headD 0 ≠ 47 ∨ b.headD 0 ≠ 47 then 1
  else if a.length < 2 ∨ b.length < 2 then 1
  else if dirlevels a ≠ dirlevels b then 1
  else if strcmp (gnu_dirname a) (gnu_dirname b) ≠ 0 then 1
  else 0

structure alias_entry where
  file : List Nat
  target : List Nat
deriving Repr, DecidableEq

/-- The alias-relevant state of a `struct config_entry`. -/
structure config_entry where
  aliases : List alias_entry
deriving Repr, DecidableEq

/-- Embeds `__set_alias` (`realloc`/`strdup` assumed to succeed): appends
the pair to the entry's alias array. -/
def set_alias (e : config_entry) (file target : List Nat) : config_entry :=
  { e with aliases := e.aliases ++ [{ file := file, target := target }] }

/-- Embeds `__entry_set_alias` after its `sscanf` has parsed the
configuration line into the source path `file` and the target path
`target`: record the alias exactly when `__check_paths` admits the
pair. -/
def entry_set_alias (e : config_entry) (file target : List Nat) :
    config_entry :=
  if check_paths file target = 0 then set_alias e file target else e

/-! ## Invariant predicates and concrete example states -/

/-- The recursion-context invariant the spec states:
`0 ≤ depth ≤ max_depth ≤ MAX_RECURSION_DEPTH`. -/
def ctx_invariant (ctx : recursion_context) : Prop :=
  0 ≤ ctx.depth ∧ ctx.depth ≤ ctx.max_depth ∧
    ctx.max_depth ≤ MAX_RECURSION_DEPTH

/-- The extraction-buffer invariant: content fits the capacity and the
capacity never exceeds the 1 GiB cap. -/
def extract_buffer_inv (b : extract_buffer) : Prop :=
  b.size ≤ b.capacity ∧ b.capacity ≤ EXTRACT_BUFFER_LIMIT

/-- A concrete recursion context of depth 2 (for witnesses). -/
def ctxExample : recursion_context :=
  { depth := 2
    max_depth := 5
    visited := [⟨1, 2, 3⟩, ⟨4, 5, 6⟩, fpZero]
    archive_chain := []
    total_unpacked_size := 7
    max_unpacked_size := 100 }

/-! # Theorems -/

/-- C3: on a context satisfying the invariant, `recursion_push_archive`
fails with `-ELOOP` and leaves the context (in particular `depth` and
`visited`) unchanged exactly on `depth ≥ max_depth`; otherwise it stores
the fingerprint at index `depth` and increments `depth`.  The invariant
`0 ≤ depth ≤ max_depth ≤ MAX_RECURSION_DEPTH = 10` is established by
`recursion_context_init` and preserved by every push and every pop. -/
theorem recursion_push_pop_invariant (dOpt uOpt : Option Int)
    (ctx : recursion_context) (fp : archive_fingerprint)
    (path : Option (List Nat)) (h : ctx_invariant ctx) :
    ctx_invariant (recursion_context_init dOpt uOpt) ∧
    MAX_RECURSION_DEPTH = 10 ∧
    (ctx.max_depth ≤ ctx.depth →
      recursion_push_archive ctx fp path = (-ELOOP, ctx)) ∧
    (ctx.depth < ctx.max_depth →
      recursion_push_archive ctx fp path =
        (0, { ctx with
                visited := ctx.visited.set ctx.depth.toNat fp
                archive_chain := ctx.archive_chain.set ctx.depth.toNat path
                depth := ctx.depth + 1 })) ∧
    ctx_invariant (recursion_push_archive ctx fp path).2 ∧
    ctx_invariant (recursion_pop_archive ctx) := by
  obtain ⟨h0, h1, h2⟩ := h
  refine ⟨?_, rfl, ?_, ?_, ?_, ?_⟩
  · refine ⟨le_refl 0, ?_, ?_⟩
    all_goals
      unfold recursion_context_init MAX_RECURSION_DEPTH
        DEFAULT_MAX_RECURSION_DEPTH
      rcases dOpt with _ | c <;> rcases uOpt with _ | u <;> simp <;>
        split_ifs <;> omega
  · intro hge
    unfold recursion_push_archive
    rw [if_pos (by omega)]
  · intro hlt
    unfold recursion_push_archive
    rw [if_neg (by omega), if_neg (by unfold MAX_RECURSION_DEPTH at *; omega)]
  · unfold recursion_push_archive
    split_ifs with hA hB
    · exact ⟨h0, h1, h2⟩
    · exact ⟨h0, h1, h2⟩
    · refine ⟨?_, ?_, h2⟩
      · show (0 : Int) ≤ ctx.depth + 1
        omega
      · show ctx.depth + 1 ≤ ctx.max_depth
        omega
  · unfold recursion_pop_archive
    split_ifs with hz
    · exact ⟨h0, h1, h2⟩
    · refine ⟨?_, ?_, h2⟩
      · show (0 : Int) ≤ ctx.depth - 1
        omega
      · show ctx.depth - 1 ≤ ctx.max_depth
        omega

/-- Witness for C3 at a concrete context, fingerprint and path. -/
theorem recursion_push_pop_invariant_witness :
    ctx_invariant ctxExample ∧
    (ctx_invariant (recursion_context_init (some 3) none) ∧
      MAX_RECURSION_DEPTH = 10 ∧
      (ctxExample.max_depth ≤ ctxExample.depth →
        recursion_push_archive ctxExample ⟨9, 9, 9⟩ none = (-ELOOP, ctxExample)) ∧
      (ctxExample.depth < ctxExample.max_depth →
        recursion_push_archive ctxExample ⟨9, 9, 9⟩ none =
          (0, { ctxExample with
                  visited := ctxExample.visited.set ctxExample.depth.toNat ⟨9, 9, 9⟩
                  archive_chain :=
                    ctxExample.archive_chain.set ctxExample.depth.toNat none
                  depth := ctxExample.depth + 1 })) ∧
      ctx_invariant (recursion_push_archive ctxExample ⟨9, 9, 9⟩ none).2 ∧
      ctx_invariant (recursion_pop_archive ctxExample)) :=
  ⟨by unfold ctx_invariant ctxExample MAX_RECURSION_DEPTH; refine ⟨?_, ?_, ?_⟩ <;> decide,
   recursion_push_pop_invariant (some 3) none ctxExample ⟨9, 9, 9⟩ none
     (by unfold ctx_invariant ctxExample MAX_RECURSION_DEPTH
         refine ⟨?_, ?_, ?_⟩ <;> decide)⟩

/-- C4: for non-negative sizes, `check_unpack_size_limit` returns
`-EFBIG` exactly when `total_unpacked_size + archive_size` would exceed
`max_unpacked_size`, leaving the context untouched in that case; on
success it adds exactly `archive_size`, so
`total_unpacked_size ≤ max_unpacked_size` is preserved by every call. -/
theorem check_unpack_size_limit_spec (ctx : recursion_context)
    (archive_size : Int) (h0 : 0 ≤ archive_size) :
    ((check_unpack_size_limit ctx archive_size).1 = -EFBIG ↔
      ctx.max_unpacked_size < ctx.total_unpacked_size + archive_size) ∧
    ((check_unpack_size_limit ctx archive_size).1 = -EFBIG →
      (check_unpack_size_limit ctx archive_size).2 = ctx) ∧
    ((check_unpack_size_limit ctx archive_size).1 = 0 →
      (check_unpack_size_limit ctx archive_size).2.total_unpacked_size =
        ctx.total_unpacked_size + archive_size) ∧
    (ctx.total_unpacked_size ≤ ctx.max_unpacked_size →
      (check_unpack_size_limit ctx archive_size).2.total_unpacked_size ≤
        ctx.max_unpacked_size) := by
  unfold check_unpack_size_limit
  rw [if_neg (by omega)]
  split_ifs with hbig
  · refine ⟨by constructor <;> intro <;> [omega; rfl], fun _ => rfl, ?_, fun hh => hh⟩
    intro h27
    exact absurd h27 (by unfold EFBIG; omega)
  · refine ⟨?_, ?_, fun _ => rfl, ?_⟩
    · constructor
      · intro h27
        exact absurd h27 (by unfold EFBIG; omega)
      · intro hgt
        omega
    · intro h27
      exact absurd h27 (by unfold EFBIG; omega)
    · intro hle
      simp only
      omega

/-- Witness for C4 at a concrete context and size. -/
theorem check_unpack_size_limit_spec_witness :
    (0 : Int) ≤ 50 ∧
    ((check_unpack_size_limit ctxExample 50).1 = -EFBIG ↔
      ctxExample.max_unpacked_size < ctxExample.total_unpacked_size + 50) ∧
    ((check_unpack_size_limit ctxExample 50).1 = -EFBIG →
      (check_unpack_size_limit ctxExample 50).2 = ctxExample) ∧
    ((check_unpack_size_limit ctxExample 50).1 = 0 →
      (check_unpack_size_limit ctxExample 50).2.total_unpacked_size =
        ctxExample.total_unpacked_size + 50) ∧
    (ctxExample.total_unpacked_size ≤ ctxExample.max_unpacked_size →
      (check_unpack_size_limit ctxExample 50).2.total_unpacked_size ≤
        ctxExample.max_unpacked_size) :=
  ⟨by decide, check_unpack_size_limit_spec ctxExample 50 (by decide)⟩

/-- C10: a successful `recursion_push_archive` followed by
`recursion_pop_archive` restores `depth` and zeroes the fingerprint slot
the push wrote, and `recursion_pop_archive` on a context of depth 0
leaves the context unchanged. -/
theorem recursion_push_pop_roundtrip (ctx : recursion_context)
    (fp : archive_fingerprint) (path : Option (List Nat))
    (h0 : 0 ≤ ctx.depth) (hd : ctx.depth < ctx.max_depth)
    (hm : ctx.max_depth ≤ MAX_RECURSION_DEPTH) :
    (recursion_push_archive ctx fp path).1 = 0 ∧
    (recursion_pop_archive (recursion_push_archive ctx fp path).2).depth =
      ctx.depth ∧
    (recursion_pop_archive (recursion_push_archive ctx fp path).2).visited =
      ctx.visited.set ctx.depth.toNat fpZero ∧
    ∀ c : recursion_context, c.depth = 0 → recursion_pop_archive c = c := by
  unfold MAX_RECURSION_DEPTH at hm
  have hpush : recursion_push_archive ctx fp path =
      (0, { ctx with
              visited := ctx.visited.set ctx.depth.toNat fp
              archive_chain := ctx.archive_chain.set ctx.depth.toNat path
              depth := ctx.depth + 1 }) := by
    unfold recursion_push_archive
    rw [if_neg (by omega), if_neg (by unfold MAX_RECURSION_DEPTH; omega)]
  rw [hpush]
  have hpop : recursion_pop_archive
      { ctx with
          visited := ctx.visited.set ctx.depth.toNat fp
          archive_chain := ctx.archive_chain.set ctx.depth.toNat path
          depth := ctx.depth + 1 } =
      { ctx with
          visited := (ctx.visited.set ctx.depth.toNat fp).set
            (ctx.depth + 1 - 1).toNat fpZero
          archive_chain := (ctx.archive_chain.set ctx.depth.toNat path).set
            (ctx.depth + 1 - 1).toNat none
          depth := ctx.depth + 1 - 1 } := by
    unfold recursion_pop_archive
    rw [if_neg (by show ¬ ctx.depth + 1 ≤ 0; omega)]
  have harg : (ctx.depth + 1 - 1).toNat = ctx.depth.toNat := by omega
  refine ⟨rfl, ?_, ?_, ?_⟩
  · show (recursion_pop_archive _).depth = ctx.depth
    rw [hpop]
    show ctx.depth + 1 - 1 = ctx.depth
    omega
  · show (recursion_pop_archive _).visited = _
    rw [hpop]
    show (ctx.visited.set ctx.depth.toNat fp).set
        (ctx.depth + 1 - 1).toNat fpZero = _
    rw [harg, List.set_set]
  · intro c hc
    unfold recursion_pop_archive
    rw [if_pos (by omega)]

/-- Witness for C10 at a concrete context, fingerprint and path. -/
theorem recursion_push_pop_roundtrip_witness :
    ((0 : Int) ≤ ctxExample.depth ∧ ctxExample.depth < ctxExample.max_depth ∧
      ctxExample.max_depth ≤ MAX_RECURSION_DEPTH) ∧
    ((recursion_push_archive ctxExample ⟨9, 9, 9⟩ (some [97])).1 = 0 ∧
      (recursion_pop_archive
          (recursion_push_archive ctxExample ⟨9, 9, 9⟩ (some [97])).2).depth =
        ctxExample.depth ∧
      (recursion_pop_archive
          (recursion_push_archive ctxExample ⟨9, 9, 9⟩ (some [97])).2).visited =
        ctxExample.visited.set ctxExample.depth.toNat fpZero ∧
      ∀ c : recursion_context, c.depth = 0 → recursion_pop_archive c = c) :=
  ⟨⟨by decide, by decide, by unfold ctxExample MAX_RECURSION_DEPTH; decide⟩,
   recursion_push_pop_roundtrip ctxExample ⟨9, 9, 9⟩ (some [97]) (by decide)
     (by decide) (by unfold ctxExample MAX_RECURSION_DEPTH; decide)⟩

/-- C2: `is_cycle_detected` reports a cycle exactly when some entry among
the first `depth` slots of `visited` agrees with `fp` on all three
components — hash, size and mtime; agreement on fewer components is not a
cycle.  (`depth.toNat` is the number of loop iterations the C `for` runs;
the hypothesis keeps the scanned indices inside the array, as in every
reachable context.) -/
theorem is_cycle_detected_iff (ctx : recursion_context)
    (fp : archive_fingerprint)
    (hlen : ctx.depth.toNat ≤ ctx.visited.length) :
    is_cycle_detected ctx fp = true ↔
      ∃ i : Nat, i < ctx.depth.toNat ∧ ∃ v : archive_fingerprint,
        ctx.visited[i]? = some v ∧
        v.hash = fp.hash ∧ v.size = fp.size ∧ v.mtime = fp.mtime := by
  unfold is_cycle_detected
  rw [List.any_eq_true]
  constructor
  · rintro ⟨v, hv_mem, hp⟩
    obtain ⟨i, hi, hget⟩ := List.mem_iff_getElem.1 hv_mem
    have hi' : i < ctx.depth.toNat := by
      have := List.length_take ctx.depth.toNat ctx.visited ▸ hi
      omega
    have hsome : (ctx.visited.take ctx.depth.toNat)[i]? = some v :=
      List.getElem?_eq_some_iff.2 ⟨hi, hget⟩
    rw [List.getElem?_take_of_lt hi'] at hsome
    refine ⟨i, hi', v, hsome, ?_, ?_, ?_⟩ <;>
      simp only [Bool.and_eq_true, beq_iff_eq] at hp <;> tauto
  · rintro ⟨i, hi, v, hv, h1, h2, h3⟩
    have hsome : (ctx.visited.take ctx.depth.toNat)[i]? = some v := by
      rw [List.getElem?_take_of_lt hi]
      exact hv
    obtain ⟨hlt, hget⟩ := List.getElem?_eq_some_iff.1 hsome
    refine ⟨v, hget ▸ List.getElem_mem hlt, ?_⟩
    simp [h1, h2, h3]

/-- Witness for C2 at a concrete context and fingerprint. -/
theorem is_cycle_detected_iff_witness :
    ctxExample.depth.toNat ≤ ctxExample.visited.length ∧
    (is_cycle_detected ctxExample ⟨4, 5, 6⟩ = true ↔
      ∃ i : Nat, i < ctxExample.depth.toNat ∧ ∃ v : archive_fingerprint,
        ctxExample.visited[i]? = some v ∧
        v.hash = (4 : Nat) ∧ v.size = (5 : Int) ∧ v.mtime = (6 : Int)) :=
  ⟨by decide, is_cycle_detected_iff ctxExample ⟨4, 5, 6⟩ (by decide)⟩

/-- C5: on a non-empty buffer, `compute_archive_fingerprint` records the
byte length as `size`, the given `mtime`, and as `hash` the FNV-1a hash
of the 8-byte (little-endian) value obtained by XORing the FNV-1a hash of
the first `min n 4096` bytes with the FNV-1a hash of the last 4096 bytes
(0 when `n ≤ 4096`) . -/
theorem compute_archive_fingerprint_spec (data : List Nat) (mtime : Int)
    (h : data ≠ []) :
    (compute_archive_fingerprint data mtime).size = (data.length : Int) ∧
    (compute_archive_fingerprint data mtime).mtime = mtime ∧
    (compute_archive_fingerprint data mtime).hash =
      fnv1a_hash_64 (le64Bytes
        (fnv1a_hash_64 (data.take (min data.length 4096)) ^^^
          (if 4096 < data.length then
            fnv1a_hash_64 (data.drop (data.length - 4096))
          else 0))) := by
  have hne : data.length ≠ 0 := fun hz => h (List.length_eq_zero.1 hz)
  have hmin : (if data.length < FINGERPRINT_CHUNK_SIZE then data.length
      else FINGERPRINT_CHUNK_SIZE) = min data.length 4096 := by
    unfold FINGERPRINT_CHUNK_SIZE
    split <;> omega
  unfold compute_archive_fingerprint
  rw [if_neg hne]
  refine ⟨rfl, rfl, ?_⟩
  show fnv1a_hash_64 (le64Bytes
      (fnv1a_hash_64 (data.take (if data.length < FINGERPRINT_CHUNK_SIZE then
          data.length else FINGERPRINT_CHUNK_SIZE)) ^^^
        (if FINGERPRINT_CHUNK_SIZE < data.length then
          fnv1a_hash_64 (data.drop (data.length - FINGERPRINT_CHUNK_SIZE))
        else 0))) = _
  rw [hmin]
  rfl

/-- Witness for C5 at a concrete buffer and mtime. -/
theorem compute_archive_fingerprint_spec_witness :
    ([72, 69, 76, 76, 79] : List Nat) ≠ [] ∧
    ((compute_archive_fingerprint [72, 69, 76, 76, 79] 42).size = (5 : Int) ∧
      (compute_archive_fingerprint [72, 69, 76, 76, 79] 42).mtime = 42 ∧
      (compute_archive_fingerprint [72, 69, 76, 76, 79] 42).hash =
        fnv1a_hash_64 (le64Bytes
          (fnv1a_hash_64 (([72, 69, 76, 76, 79] : List Nat).take
              (min ([72, 69, 76, 76, 79] : List Nat).length 4096)) ^^^
            (if 4096 < ([72, 69, 76, 76, 79] : List Nat).length then
              fnv1a_hash_64 (([72, 69, 76, 76, 79] : List Nat).drop
                (([72, 69, 76, 76, 79] : List Nat).length - 4096))
            else 0)))) :=
  ⟨by decide,
   compute_archive_fingerprint_spec [72, 69, 76, 76, 79] 42 (by decide)⟩

/-- Helper: one callback invocation preserves the buffer invariant. -/
theorem extract_callback_preserves_inv (buf : extract_buffer)
    (chunk : List Nat) (h : extract_buffer_inv buf) :
    extract_buffer_inv (extract_to_memory_callback buf chunk).2 := by
  obtain ⟨h1, h2⟩ := h
  simp only [extract_to_memory_callback, extract_buffer_inv]
  split_ifs <;> dsimp only <;> constructor <;> omega

/-- Helper: a whole chunk sequence preserves the buffer invariant. -/
theorem extract_run_preserves_inv (chunks : List (List Nat))
    (buf : extract_buffer) (h : extract_buffer_inv buf) :
    extract_buffer_inv (extract_run chunks buf) := by
  induction chunks generalizing buf with
  | nil => exact h
  | cons c cs ih =>
      exact ih (extract_to_memory_callback buf c).2
        (extract_callback_preserves_inv buf c h)

/-- C6: starting from any buffer satisfying the invariant (in particular
the caller's zeroed buffer), the extraction buffer's size never exceeds
1 GiB: a chunk whose acceptance would push the needed capacity past
1 GiB makes the callback return `-1` and set the error flag without
copying the chunk, a buffer already in the error state is never modified,
and the invariant (hence the 1 GiB bound) holds after any sequence of
chunks. -/
theorem extract_to_memory_callback_spec (buf : extract_buffer)
    (chunk : List Nat) (chunks : List (List Nat))
    (h : extract_buffer_inv buf) :
    extract_buffer_inv (extract_to_memory_callback buf chunk).2 ∧
    (extract_to_memory_callback buf chunk).2.size ≤ EXTRACT_BUFFER_LIMIT ∧
    (buf.error = false → EXTRACT_BUFFER_LIMIT < buf.size + chunk.length →
      (extract_to_memory_callback buf chunk).1 = -1 ∧
      (extract_to_memory_callback buf chunk).2.error = true ∧
      (extract_to_memory_callback buf chunk).2.data = buf.data ∧
      (extract_to_memory_callback buf chunk).2.size = buf.size) ∧
    (buf.error = true →
      (extract_to_memory_callback buf chunk).1 = -1 ∧
      (extract_to_memory_callback buf chunk).2 = buf) ∧
    extract_buffer_inv (extract_run chunks buf) ∧
    (extract_run chunks buf).size ≤ EXTRACT_BUFFER_LIMIT := by
  obtain ⟨h1, h2⟩ := h
  have hstep := extract_callback_preserves_inv buf chunk ⟨h1, h2⟩
  have hrun := extract_run_preserves_inv chunks buf ⟨h1, h2⟩
  refine ⟨hstep, le_trans hstep.1 hstep.2, ?_, ?_, hrun, le_trans hrun.1 hrun.2⟩
  · intro herr hover
    simp only [extract_to_memory_callback]
    split_ifs with hA hB hC hD hE <;>
      first
        | exact ⟨rfl, rfl, rfl, rfl⟩
        | (exfalso; omega)
        | simp [hA] at herr
  · intro herr
    simp [extract_to_memory_callback, herr]

/-- Witness for C6 at a concrete buffer, chunk and chunk sequence. -/
theorem extract_to_memory_callback_spec_witness :
    extract_buffer_inv extract_buffer_init ∧
    (extract_buffer_inv
        (extract_to_memory_callback extract_buffer_init [1, 2, 3]).2 ∧
      (extract_to_memory_callback extract_buffer_init [1, 2, 3]).2.size ≤
        EXTRACT_BUFFER_LIMIT ∧
      (extract_buffer_init.error = false →
        EXTRACT_BUFFER_LIMIT <
          extract_buffer_init.size + ([1, 2, 3] : List Nat).length →
        (extract_to_memory_callback extract_buffer_init [1, 2, 3]).1 = -1 ∧
        (extract_to_memory_callback extract_buffer_init [1, 2, 3]).2.error =
          true ∧
        (extract_to_memory_callback extract_buffer_init [1, 2, 3]).2.data =
          extract_buffer_init.data ∧
        (extract_to_memory_callback extract_buffer_init [1, 2, 3]).2.size =
          extract_buffer_init.size) ∧
      (extract_buffer_init.error = true →
        (extract_to_memory_callback extract_buffer_init [1, 2, 3]).1 = -1 ∧
        (extract_to_memory_callback extract_buffer_init [1, 2, 3]).2 =
          extract_buffer_init) ∧
      extract_buffer_inv (extract_run [[1, 2], [3]] extract_buffer_init) ∧
      (extract_run [[1, 2], [3]] extract_buffer_init).size ≤
        EXTRACT_BUFFER_LIMIT) :=
  ⟨⟨by decide, by decide⟩,
   extract_to_memory_callback_spec extract_buffer_init [1, 2, 3] [[1, 2], [3]]
     ⟨by decide, by decide⟩⟩

/-- C1: `sanitize_nested_path` does not remove every `".."` path
component.  The input `"x/....//b"` (bytes: 120 = `x`, 47 = `/`, 46 =
`.`, 98 = `b`) passes every validation rule, yet the single-pass stripper
manufactures a fresh `".."` out of the surviving dots and the function
returns `"x/../b"` — a path that still contains a `".."` traversal
component (`"/../"` is an infix of the result). -/
theorem sanitize_nested_path_emits_dotdot :
    sanitize_nested_path [120, 47, 46, 46, 46, 46, 47, 47, 98] =
      some [120, 47, 46, 46, 47, 98] ∧
    [47, 46, 46, 47] <:+: [120, 47, 46, 46, 47, 98] :=
  ⟨rfl, ⟨[120], [98], rfl⟩⟩

/-- Helper: `strcmp` equals zero exactly on equal byte strings. -/
theorem strcmp_eq_zero_iff : ∀ x y : List Nat, strcmp x y = 0 ↔ x = y
  | [], [] => by simp [strcmp]
  | [], _ :: _ => by simp [strcmp]
  | _ :: _, [] => by simp [strcmp]
  | a :: as, b :: bs => by
      rw [strcmp]
      split_ifs with h1 h2
      · constructor
        · intro h
          exact absurd h (by norm_num)
        · intro h
          exact absurd h (by simp; omega)
      · constructor
        · intro h
          exact absurd h (by norm_num)
        · intro h
          exact absurd h (by simp; omega)
      · have hab : a = b := by omega
        rw [strcmp_eq_zero_iff as bs]
        simp [hab]

/-- C9: `dir_entry_add` with a key already present (same stored hash and
same name) returns the existing node and leaves the list unchanged, so
repeated insertion of the same key is idempotent. -/
theorem dir_entry_add_existing (l : List dir_entry) (key : List Nat)
    (st : Nat) (type : Int) (e : dir_entry)
    (hfound : l.find? (entry_matches (get_hash key) key) = some e) :
    dir_entry_add l key st type = (l, e) ∧
    e ∈ l ∧
    dir_entry_add (dir_entry_add l key st type).1 key st type =
      dir_entry_add l key st type := by
  have h1 : dir_entry_add l key st type = (l, e) := by
    simp only [dir_entry_add]
    rw [hfound]
  refine ⟨h1, List.mem_of_find?_eq_some hfound, ?_⟩
  rw [h1]
  show dir_entry_add l key st type = (l, e)
  exact h1

/-- Witness for C9 at a concrete one-element list and key. -/
theorem dir_entry_add_existing_witness :
    ([⟨[97], 177670, 1, 1, 7⟩] : List dir_entry).find?
        (entry_matches (get_hash [97]) [97]) =
      some ⟨[97], 177670, 1, 1, 7⟩ ∧
    (dir_entry_add [⟨[97], 177670, 1, 1, 7⟩] [97] 9 2 =
        ([⟨[97], 177670, 1, 1, 7⟩], ⟨[97], 177670, 1, 1, 7⟩) ∧
      (⟨[97], 177670, 1, 1, 7⟩ : dir_entry) ∈
        ([⟨[97], 177670, 1, 1, 7⟩] : List dir_entry) ∧
      dir_entry_add (dir_entry_add [⟨[97], 177670, 1, 1, 7⟩] [97] 9 2).1
          [97] 9 2 =
        dir_entry_add [⟨[97], 177670, 1, 1, 7⟩] [97] 9 2) :=
  ⟨by decide,
   dir_entry_add_existing [⟨[97], 177670, 1, 1, 7⟩] [97] 9 2
     ⟨[97], 177670, 1, 1, 7⟩ (by decide)⟩

/-- Helper: `__check_paths` admits a pair exactly under the claim's four
conditions. -/
theorem check_paths_eq_zero_iff (a b : List Nat) :
    check_paths a b = 0 ↔
      (a.headD 0 = 47 ∧ b.headD 0 = 47 ∧ 2 ≤ a.length ∧ 2 ≤ b.length ∧
        dirlevels a = dirlevels b ∧ gnu_dirname a = gnu_dirname b) := by
  unfold check_paths
  split_ifs with h1 h2 h3 h4
  · constructor
    · intro h; exact absurd h (by omega)
    · rintro ⟨c1, c2, c3, c4, c5, c6⟩
      rcases h1 with h1 | h1 <;> exact absurd (by assumption) h1
  · constructor
    · intro h; exact absurd h (by omega)
    · rintro ⟨c1, c2, c3, c4, c5, c6⟩
      rcases h2 with h2 | h2 <;> omega
  · constructor
    · intro h; exact absurd h (by omega)
    · rintro ⟨c1, c2, c3, c4, c5, c6⟩
      exact absurd c5 h3
  · constructor
    · intro h; exact absurd h (by omega)
    · rintro ⟨c1, c2, c3, c4, c5, c6⟩
      exact absurd ((strcmp_eq_zero_iff _ _).2 c6) h4
  · push_neg at h1 h2
    constructor
    · intro _
      exact ⟨h1.1, h1.2, h2.1, h2.2, not_ne_iff.1 h3,
        (strcmp_eq_zero_iff _ _).1 (not_ne_iff.1 h4)⟩
    · intro _
      rfl

/-- C8: an alias configuration pair `(a, b)` is stored on the config
entry if and only if both paths begin with `'/'`, both have length at
least 2, both have the same number of directory levels, and both have the
same dirname; any other (in particular cross-directory) pair is rejected
and leaves the entry unchanged. -/
theorem entry_set_alias_spec (e : config_entry) (a b : List Nat) :
    ((entry_set_alias e a b).aliases =
        e.aliases ++ [{ file := a, target := b }] ↔
      (a.headD 0 = 47 ∧ b.headD 0 = 47 ∧ 2 ≤ a.length ∧ 2 ≤ b.length ∧
        dirlevels a = dirlevels b ∧ gnu_dirname a = gnu_dirname b)) ∧
    (¬ (a.headD 0 = 47 ∧ b.headD 0 = 47 ∧ 2 ≤ a.length ∧ 2 ≤ b.length ∧
        dirlevels a = dirlevels b ∧ gnu_dirname a = gnu_dirname b) →
      entry_set_alias e a b = e) := by
  have hiff := check_paths_eq_zero_iff a b
  constructor
  · constructor
    · intro hstore
      by_cases hc : check_paths a b = 0
      · exact hiff.1 hc
      · exfalso
        unfold entry_set_alias at hstore
        rw [if_neg hc] at hstore
        have := congrArg List.length hstore
        simp at this
    · intro hcond
      unfold entry_set_alias set_alias
      rw [if_pos (hiff.2 hcond)]
  · intro hncond
    unfold entry_set_alias
    rw [if_neg (fun hc => hncond (hiff.1 hc))]

/-- Helper: `strcmp` is antisymmetric. -/
theorem strcmp_swap : ∀ x y : List Nat, strcmp x y = -strcmp y x
  | [], [] => by simp [strcmp]
  | [], _ :: _ => by simp [strcmp]
  | _ :: _, [] => by simp [strcmp]
  | a :: as, b :: bs => by
      rw [strcmp, strcmp]
      split_ifs with h1 h2 h2
      · exfalso
        omega
      · norm_num
      · norm_num
      · exact strcmp_swap as bs

/-- Helper: `strcmp` only takes the values `-1`, `0` and `1`. -/
theorem strcmp_trichotomy : ∀ x y : List Nat,
    strcmp x y = -1 ∨ strcmp x y = 0 ∨ strcmp x y = 1
  | [], [] => by simp [strcmp]
  | [], _ :: _ => by simp [strcmp]
  | _ :: _, [] => by simp [strcmp]
  | a :: as, b :: bs => by
      rw [strcmp]
      split_ifs <;> first | simp | exact strcmp_trichotomy as bs

/-- Helper: the exchange order of `swap` is asymmetric. -/
theorem dir_entry_gt_asymm (A B : dir_entry)
    (h : dir_entry_gt A B = true) : dir_entry_gt B A = false := by
  have hs := strcmp_swap A.name B.name
  unfold dir_entry_gt at h ⊢
  split_ifs at h ⊢ with h1 h2 <;>
    simp only [decide_eq_true_eq] at h <;>
    simp only [decide_eq_false_iff_not] <;>
    omega

/-- Helper: not exchanging is exactly nondecreasing (name, type) order. -/
theorem dir_entry_gt_eq_false_iff (A B : dir_entry) :
    dir_entry_gt A B = false ↔
      (strcmp A.name B.name = -1 ∨
        (strcmp A.name B.name = 0 ∧ A.type ≤ B.type)) := by
  have ht := strcmp_trichotomy A.name B.name
  unfold dir_entry_gt
  split_ifs with h1
  · simp only [decide_eq_false_iff_not]
    constructor
    · intro h
      exact Or.inr ⟨h1, by omega⟩
    · rintro (h | ⟨_, h⟩) <;> omega
  · simp only [decide_eq_false_iff_not]
    constructor
    · intro h
      left
      omega
    · rintro (h | ⟨h, _⟩) <;> omega

/-- Helper: the duplicate condition, propositionally. -/
theorem dup_cond_iff (A B : dir_entry) :
    dup_cond A B = true ↔
      ((A.type = DIR_E_NRM ∨ A.hash = B.hash) ∧ A.name = B.name) := by
  unfold dup_cond
  simp only [Bool.and_eq_true, Bool.or_eq_true, beq_iff_eq]
  rw [strcmp_eq_zero_iff]

/-- Helper: a bubble pass permutes the entries. -/
theorem bubblePass_perm : ∀ l : List dir_entry, ((bubblePass l).1).Perm l
  | [] => by simp [bubblePass]
  | [a] => by simp [bubblePass]
  | a :: b :: rest => by
      simp only [bubblePass]
      split_ifs with h
      · dsimp only
        exact ((bubblePass_perm (a :: rest)).cons b).trans
          (List.Perm.swap a b rest)
      · dsimp only
        exact (bubblePass_perm (b :: rest)).cons a

/-- Helper: a bubble pass removes exactly as many inversions as it
swaps. -/
theorem bubblePass_inversions :
    ∀ l : List dir_entry,
      inversions (bubblePass l).1 + (bubblePass l).2 = inversions l
  | [] => by simp [bubblePass]
  | [a] => by simp [bubblePass, inversions]
  | a :: b :: rest => by
      simp only [bubblePass]
      split_ifs with h
      · dsimp only
        have hperm := bubblePass_perm (a :: rest)
        have ih := bubblePass_inversions (a :: rest)
        have hasym := dir_entry_gt_asymm a b h
        have hcount := hperm.countP_eq (fun x => dir_entry_gt b x)
        simp [inversions, List.countP_cons, h, hasym] at ih hcount ⊢
        omega
      · dsimp only
        have hperm := bubblePass_perm (b :: rest)
        have ih := bubblePass_inversions (b :: rest)
        have hcount := hperm.countP_eq (fun x => dir_entry_gt a x)
        simp [inversions, List.countP_cons] at ih hcount ⊢
        omega

/-- Helper: a swapless bubble pass means the list is already sorted. -/
theorem bubblePass_no_swap :
    ∀ l : List dir_entry, (bubblePass l).2 = 0 →
      (bubblePass l).1 = l ∧
        List.Chain' (fun A B => dir_entry_gt A B = false) l
  | [] => by simp [bubblePass]
  | [a] => by simp [bubblePass]
  | a :: b :: rest => by
      simp only [bubblePass]
      split_ifs with h
      · dsimp only
        intro hn
        exact absurd hn (by omega)
      · dsimp only
        intro hn
        obtain ⟨he, hc⟩ := bubblePass_no_swap (b :: rest) hn
        refine ⟨by rw [he], ?_⟩
        rw [List.chain'_cons]
        exact ⟨by simpa using h, hc⟩

/-- Helper: with fuel exceeding the inversion count, the bubble-sort
driver reaches the swapless fixpoint: the result is sorted and a
permutation of the input. -/
theorem bubbleLoop_sorted :
    ∀ (fuel : Nat) (l : List dir_entry), inversions l < fuel →
      List.Chain' (fun A B => dir_entry_gt A B = false)
        (bubbleLoop fuel l) ∧ (bubbleLoop fuel l).Perm l
  | 0, l => by
      intro h
      exact absurd h (by omega)
  | fuel + 1, l => by
      intro h
      simp only [bubbleLoop]
      split_ifs with hz
      · obtain ⟨he, hc⟩ := bubblePass_no_swap l hz
        rw [he]
        exact ⟨hc, List.Perm.refl l⟩
      · have hinv := bubblePass_inversions l
        have hlt : inversions (bubblePass l).1 < fuel := by omega
        obtain ⟨hc, hp⟩ := bubbleLoop_sorted fuel (bubblePass l).1 hlt
        exact ⟨hc, hp.trans (bubblePass_perm l)⟩

/-- Helper: duplicate marking keeps the head entry. -/
theorem markDups_head : ∀ l : List dir_entry, (markDups l).head? = l.head?
  | [] => by simp [markDups]
  | [a] => by simp [markDups]
  | a :: b :: rest => by
      simp only [markDups]
      split_ifs <;> rfl

/-- Helper: duplicate marking changes only `valid` flags. -/
theorem markDups_map_key :
    ∀ l : List dir_entry, (markDups l).map entry_key = l.map entry_key
  | [] => by simp [markDups]
  | [a] => by simp [markDups]
  | a :: b :: rest => by
      simp only [markDups]
      split_ifs with h
      · have ih := markDups_map_key ({ b with valid := 0 } :: rest)
        simp only [List.map_cons] at ih ⊢
        rw [ih]
        rfl
      · have ih := markDups_map_key (b :: rest)
        simp only [List.map_cons] at ih ⊢
        rw [ih]
termination_by l => l.length
decreasing_by all_goals simp

/-- Helper: after duplicate marking, the later entry of every adjacent
duplicate pair is invalid. -/
theorem markDups_chain_dup :
    ∀ l : List dir_entry,
      List.Chain' (fun A B => dup_cond A B = true → B.valid = 0)
        (markDups l)
  | [] => by simp [markDups]
  | [a] => by simp [markDups]
  | a :: b :: rest => by
      simp only [markDups]
      split_ifs with h
      · rw [List.chain'_cons']
        refine ⟨?_, markDups_chain_dup ({ b with valid := 0 } :: rest)⟩
        intro y hy
        rw [markDups_head] at hy
        simp only [List.head?_cons, Option.mem_def, Option.some.injEq] at hy
        subst hy
        intro _
        rfl
      · rw [List.chain'_cons']
        refine ⟨?_, markDups_chain_dup (b :: rest)⟩
        intro y hy
        rw [markDups_head] at hy
        simp only [List.head?_cons, Option.mem_def, Option.some.injEq] at hy
        subst hy
        intro hd
        exact absurd hd h
termination_by l => l.length
decreasing_by all_goals simp

/-- Helper: after duplicate marking, an entry that is not the later
element of an adjacent duplicate pair keeps its flag (here: stays valid
when every non-head input entry was valid). -/
theorem markDups_chain_keep :
    ∀ l : List dir_entry, (∀ e ∈ l.tail, e.valid = 1) →
      List.Chain' (fun A B => dup_cond A B = false → B.valid = 1)
        (markDups l)
  | [] => by intro _; simp [markDups]
  | [a] => by intro _; simp [markDups]
  | a :: b :: rest => by
      intro hval
      simp only [markDups]
      split_ifs with h
      · rw [List.chain'_cons']
        refine ⟨?_, markDups_chain_keep ({ b with valid := 0 } :: rest) ?_⟩
        · intro y hy
          rw [markDups_head] at hy
          simp only [List.head?_cons, Option.mem_def, Option.some.injEq] at hy
          subst hy
          intro hd
          exact absurd (show dup_cond a b = true from h)
            (by rw [show dup_cond a b = dup_cond a { b with valid := 0 } from
              rfl, hd]; simp)
        · intro e he
          exact hval e (List.mem_cons_of_mem b he)
      · rw [List.chain'_cons']
        refine ⟨?_, markDups_chain_keep (b :: rest) ?_⟩
        · intro y hy
          rw [markDups_head] at hy
          simp only [List.head?_cons, Option.mem_def, Option.some.injEq] at hy
          subst hy
          intro _
          exact hval b (List.mem_cons_self b rest)
        · intro e he
          exact hval e (List.mem_cons_of_mem b he)
termination_by l => l.length
decreasing_by all_goals simp

/-- Helper: duplicate marking preserves sortedness (the order reads only
name and type, which marking never changes). -/
theorem markDups_chain_sorted :
    ∀ l : List dir_entry,
      List.Chain' (fun A B => dir_entry_gt A B = false) l →
      List.Chain' (fun A B => dir_entry_gt A B = false) (markDups l)
  | [] => by intro _; simp [markDups]
  | [a] => by intro _; simp [markDups]
  | a :: b :: rest => by
      intro h
      rw [List.chain'_cons] at h
      obtain ⟨hab, hrest⟩ := h
      simp only [markDups]
      split_ifs with hd
      · rw [List.chain'_cons']
        refine ⟨?_, markDups_chain_sorted ({ b with valid := 0 } :: rest) ?_⟩
        · intro y hy
          rw [markDups_head] at hy
          simp only [List.head?_cons, Option.mem_def, Option.some.injEq] at hy
          subst hy
          exact hab
        · rw [List.chain'_cons'] at hrest ⊢
          exact ⟨fun y hy => hrest.1 y hy, hrest.2⟩
      · rw [List.chain'_cons']
        refine ⟨?_, markDups_chain_sorted (b :: rest) hrest⟩
        intro y hy
        rw [markDups_head] at hy
        simp only [List.head?_cons, Option.mem_def, Option.some.injEq] at hy
        subst hy
        exact hab
termination_by l => l.length
decreasing_by all_goals simp

/-- C7 counterexample: the claim "the later entry's valid flag is set to
0 while the earlier entry remains valid" fails on a run of three equal
entries: the middle entry is the later element of the first duplicate
pair (so it is invalidated) and at the same time the earlier element of
the second duplicate pair — so for that pair the earlier entry does not
remain valid.  Instantiated at three copies of the entry
`⟨name "a", hash 5, type 2, valid 1, st 0⟩`. -/
theorem dir_list_close_counterexample :
    ¬ (∀ (l : List dir_entry), (∀ e ∈ l, e.valid = 1) →
        ∀ (i : Nat) (A B : dir_entry),
          (dir_list_close l)[i]? = some A →
          (dir_list_close l)[i + 1]? = some B →
          (A.type = DIR_E_NRM ∨ A.hash = B.hash) → A.name = B.name →
          B.valid = 0 ∧ A.valid = 1) := by
  intro hclaim
  have := hclaim
      [⟨[97], 5, 2, 1, 0⟩, ⟨[97], 5, 2, 1, 0⟩, ⟨[97], 5, 2, 1, 0⟩]
      (by decide) 1 ⟨[97], 5, 2, 0, 0⟩ ⟨[97], 5, 2, 0, 0⟩
      (by simp [dir_list_close, dir_list_sort, inversions, bubbleLoop,
        bubblePass, markDups, dup_cond, dir_entry_gt, strcmp, DIR_E_NRM])
      (by simp [dir_list_close, dir_list_sort, inversions, bubbleLoop,
        bubblePass, markDups, dup_cond, dir_entry_gt, strcmp, DIR_E_NRM])
      (Or.inr rfl) rfl
  exact absurd this.2 (by decide)

/-- C7 (amended): after `dir_list_close` the entries are sorted in
nondecreasing (name under `strcmp`, then type) order; the later entry of
every adjacent duplicate pair (equal names, and earlier entry of the
no-hash type or equal hashes) has its valid flag cleared; an entry that
is not the later element of such a pair — in particular the first entry
of every duplicate run, e.g. the passthrough sibling, which sorts first —
stays valid; and the entries (ignoring `valid`) are a permutation of the
input. -/
theorem dir_list_close_spec (l : List dir_entry)
    (hval : ∀ e ∈ l, e.valid = 1) :
    List.Chain' (fun A B => strcmp A.name B.name = -1 ∨
      (strcmp A.name B.name = 0 ∧ A.type ≤ B.type)) (dir_list_close l) ∧
    List.Chain' (fun A B =>
      ((A.type = DIR_E_NRM ∨ A.hash = B.hash) ∧ A.name = B.name) →
        B.valid = 0) (dir_list_close l) ∧
    List.Chain' (fun A B =>
      (¬ ((A.type = DIR_E_NRM ∨ A.hash = B.hash) ∧ A.name = B.name)) →
        B.valid = 1) (dir_list_close l) ∧
    (∀ A, (dir_list_close l).head? = some A → A.valid = 1) ∧
    ((dir_list_close l).map entry_key).Perm (l.map entry_key) := by
  obtain ⟨hchain, hperm⟩ :=
    bubbleLoop_sorted (inversions l + 1) l (by omega)
  have hsorteq : dir_list_sort l = bubbleLoop (inversions l + 1) l := rfl
  have hcloseeq : dir_list_close l = markDups (dir_list_sort l) := rfl
  rw [hcloseeq, hsorteq]
  refine ⟨?_, ?_, ?_, ?_, ?_⟩
  · exact (markDups_chain_sorted _ hchain).imp
      (fun A B hAB => (dir_entry_gt_eq_false_iff A B).1 hAB)
  · exact (markDups_chain_dup _).imp
      (fun A B hAB hp => hAB ((dup_cond_iff A B).2 hp))
  · refine (markDups_chain_keep _ ?_).imp
      (fun A B hAB hp => hAB (Bool.eq_false_iff.2
        (fun ht => hp ((dup_cond_iff A B).1 ht))))
    intro e he
    exact hval e (hperm.mem_iff.1 (List.mem_of_mem_tail he))
  · intro A hA
    rw [markDups_head] at hA
    exact hval A (hperm.mem_iff.1 (List.mem_of_mem_head? hA))
  · rw [markDups_map_key]
    exact hperm.map entry_key

/-- Witness for C7 (amended) at a concrete two-entry list with a
duplicate name: the permutation conjunct of the theorem applied there. -/
theorem dir_list_close_spec_witness :
    (∀ e ∈ ([⟨[97], 5, 0, 1, 0⟩, ⟨[97], 5, 1, 1, 1⟩] : List dir_entry),
      e.valid = 1) ∧
    ((dir_list_close
        [⟨[97], 5, 0, 1, 0⟩, ⟨[97], 5, 1, 1, 1⟩]).map entry_key).Perm
      (([⟨[97], 5, 0, 1, 0⟩, ⟨[97], 5, 1, 1, 1⟩] :
          List dir_entry).map entry_key) :=
  ⟨by decide,
   (dir_list_close_spec [⟨[97], 5, 0, 1, 0⟩, ⟨[97], 5, 1, 1, 1⟩]
     (by decide)).2.2.2.2⟩

end Rar2fs
